import Mathlib

/-
  Verification development for the PrimeTime report-analysis tool
  (pt_ana_ts.py and utils/common.py).

  Shallow embedding notes:
  - Python dicts are insertion-ordered; they are modelled as association
    lists with in-place value replacement on key collision (dictInsert).
  - Python sets are used only for membership, so they are modelled as
    duplicate-free lists (setAdd / setUpdate).
  - Python string primitives (split, strip, lower) are re-implemented
    structurally over the character list of a string, so that every
    definition evaluates inside the kernel; the separators used by the
    source are single characters, for which list splitting coincides
    with Python str.split.
  - Compiled regular expressions are modelled by their pattern string in
    the configuration structure; where matching behaviour matters
    (the sticky classification walk of get_time_bar_info) the matcher is
    an explicit function String -> Bool standing for re.fullmatch of the
    compiled pattern.  re.compile is treated as total (patterns appearing
    in the analysed claims are valid regexes).
  - Python floats are modelled by the rationals.  For the one concrete
    numeric claim (skew for llat=2.0, clat=1.2, crpr=0.3) the IEEE-double
    evaluation of 2.0 - 1.2 - 0.3 is exactly 0.5 as well (the second
    subtraction is an exact tie resolved to even), so the rational model
    agrees with the float semantics on that claim.
  - Decimal string parsing (Python decimal.Decimal) is modelled for the
    sign/digits/fraction forms actually exercised by the claims.
  - The SyntaxError raised by load_times_cfg carries the 1-based line
    number; errors are modelled as Except Nat with the line number.
  - print-based advisory messages are modelled as a list of Warn values.
-/

namespace PtAnaTs

/-- Split a character list at every character satisfying p, keeping
empty chunks, as Python str.split does with an explicit separator. -/
def splitPred (p : Char → Bool) : List Char → List (List Char)
  | [] => [[]]
  | c :: t =>
      match splitPred p t with
      | [] => [[]]
      | h :: r => if p c then [] :: h :: r else (c :: h) :: r

/-- Python str.strip(): drop leading and trailing whitespace. -/
def stripChars (l : List Char) : List Char :=
  ((l.dropWhile Char.isWhitespace).reverse.dropWhile Char.isWhitespace).reverse

/-- Python str.strip() on a string. -/
def pyStrip (s : String) : String :=
  String.mk (stripChars s.data)

/-- ASCII lower-casing of one character (str.lower restricted to the
ASCII range, which covers the comparisons made by the source). -/
def charLower (c : Char) : Char :=
  if 65 ≤ c.toNat ∧ c.toNat ≤ 90 then Char.ofNat (c.toNat + 32) else c

/-- Python str.lower() on a string. -/
def pyLower (s : String) : String :=
  String.mk (s.data.map charLower)

/-- Python str.split() with no argument: split on whitespace runs,
dropping empty tokens. -/
def pySplit (s : String) : List String :=
  ((splitPred Char.isWhitespace s.data).map String.mk).filter (fun t => t ≠ "")

/-- Python str.split(sep) for a single-character separator. -/
def pySplitOn (sep : Char) (s : String) : List String :=
  (splitPred (fun c => c = sep) s.data).map String.mk

/-- Association-list lookup, mirroring Python dict lookup. -/
def dictLookup {α : Type} : List (String × α) → String → Option α
  | [], _ => none
  | (k, v) :: t, q => if k = q then some v else dictLookup t q

/-- Association-list insertion mirroring Python dict assignment:
replace the value in place when the key is present, else append. -/
def dictInsert {α : Type} : List (String × α) → String → α → List (String × α)
  | [], k, v => [(k, v)]
  | (k₀, v₀) :: t, k, v =>
      if k₀ = k then (k, v) :: t else (k₀, v₀) :: dictInsert t k v

/-- Python set add, modelled on a duplicate-free list. -/
def setAdd (l : List String) (x : String) : List String :=
  if x ∈ l then l else l ++ [x]

/-- Python set.update with an iterable of strings. -/
def setUpdate (l : List String) (xs : List String) : List String :=
  xs.foldl setAdd l

/-- str(b).lower() for a Python bool b. -/
def boolStr (b : Bool) : String := if b then "true" else "false"

/-- Value stored in the driving-cell table dc: either the catch-all
regex (stored under the literal key "re") or a Decimal override. -/
inductive DcVal where
  | re (pat : String)
  | num (q : ℚ)
deriving DecidableEq, Repr

/-- Advisory (non-fatal) messages produced by the tool. -/
inductive Warn where
  | dpcDropped
  | barsNotFound
  | unknownDrivingCell (cell : String) (ln : Nat)
deriving DecidableEq, Repr

/-- The configuration dictionary built by load_times_cfg. -/
structure ConsCfg where
  toggles : List (String × Bool)
  bds : List (String × List String)
  ckpc : List String
  ckpi : List String
  ckpr : List String
  hcd : List (String × List (String × String))
  ckt : List (Bool × String)
  ckm : List String
  dpc : Option String
  pc : List (String × String)
  cc : List (String × String)
  dc : List (String × DcVal)
deriving DecidableEq, Repr

/-- The attr table of load_times_cfg: long key, short key, default. -/
def attr : List (String × String × Bool) :=
  [ ("clock_check_enable",                       ("ckc_en",            false)),
    ("delta_sum_enable",                         ("dts_en",            false)),
    ("path_segment_enable",                      ("seg_en",            false)),
    ("ckm_with_non_clock_cell",                  ("ckm_nock",          false)),
    ("through_pin_on_report",                    ("thp_on_rpt",        false)),
    ("slack_on_report",                          ("slk_on_rpt",        true)),
    ("clock_uncertainty_on_report",              ("unce_on_rpt",       false)),
    ("library_required_on_report",               ("lib_on_rpt",        false)),
    ("datapath_level_on_report",                 ("dplv_on_rpt",       false)),
    ("clock_skew_on_report",                     ("ck_skew_on_rpt",    true)),
    ("segment_data_latency_on_report",           ("seg_dlat_on_rpt",   true)),
    ("segment_data_delta_on_report",             ("seg_ddt_on_rpt",    true)),
    ("segment_launch_clk_latency_on_report",     ("seg_llat_on_rpt",   true)),
    ("segment_launch_clk_delta_on_report",       ("seg_ldt_on_rpt",    true)),
    ("segment_capture_clk_latency_on_report",    ("seg_clat_on_rpt",   true)),
    ("segment_capture_clk_delta_on_report",      ("seg_cdt_on_rpt",    true)),
    ("segment_capture_clk_latency_include_crpr", ("seg_clat_inc_crpr", true)) ]

/-- Lookup in the attr table (Python: key in attr / attr[key]). -/
def attrLookup : List (String × String × Bool) → String → Option (String × Bool)
  | [], _ => none
  | (k, sd) :: t, q => if k = q then some sd else attrLookup t q

/-- Initial configuration: cons_cfg = dict(attr.values()) plus the empty
tables (bds, ckpc, ckpi, ckpr, hcd, ckt, ckm, dpc, pc, cc, dc). -/
def defaultCfg : ConsCfg :=
  { toggles := attr.map (fun e => e.2)
    bds := [], ckpc := [], ckpi := [], ckpr := [], hcd := []
    ckt := [], ckm := [], dpc := none, pc := [], cc := [], dc := [] }

/-- Update one boolean toggle, keyed by its short name. -/
def setToggle (cfg : ConsCfg) (sn : String) (b : Bool) : ConsCfg :=
  { cfg with toggles := dictInsert cfg.toggles sn b }

/-- Effective value of a boolean toggle in a configuration. -/
def effToggle (cfg : ConsCfg) (sn : String) : Option Bool :=
  dictLookup cfg.toggles sn

/-- The ckt tag parse: match tag.lower() with y/n, anything else errors. -/
def parseYN (s : String) : Option Bool :=
  if pyLower s = "y" then some true
  else if pyLower s = "n" then some false
  else none

/-- Numeric value of a digit list (most significant first). -/
def natOfDigits (l : List Char) : ℕ :=
  l.foldl (fun n c => n * 10 + (c.toNat - 48)) 0

/-- Decimal string parsing, modelling decimal.Decimal on the
sign/digits[.digits] forms used by dc override lines. -/
def parseDecimal (s : String) : Option ℚ :=
  let p := fun (neg : Bool) (cs : List Char) =>
    let ip := cs.takeWhile (fun c => c.isDigit)
    let rest := cs.dropWhile (fun c => c.isDigit)
    match rest with
    | [] =>
        if ip.isEmpty then none
        else some ((if neg then (-1 : ℚ) else 1) * (natOfDigits ip : ℚ))
    | '.' :: fr =>
        if fr.all (fun c => c.isDigit) && (!ip.isEmpty || !fr.isEmpty) then
          some ((if neg then (-1 : ℚ) else 1) *
                ((natOfDigits ip : ℚ) + (natOfDigits fr : ℚ) / (10 : ℚ) ^ fr.length))
        else none
    | _ => none
  match s.data with
  | '-' :: cs => p true cs
  | '+' :: cs => p false cs
  | cs => p false cs

/-- Insert one hcd entry: cons_cfg hcd setdefault(type) then
hcd[type]["pi:po"] = tag. -/
def hcdInsert (cfg : ConsCfg) (ty pinIn pinOut tag : String) : ConsCfg :=
  let m := (dictLookup cfg.hcd ty).getD []
  { cfg with hcd := dictInsert cfg.hcd ty (dictInsert m (pinIn ++ ":" ++ pinOut) tag) }

/-- The key-dispatch chain of load_times_cfg applied to one key/value
pair (both already stripped).  The error value is the 1-based line
number carried by the raised SyntaxError. -/
def dispatch (cfg : ConsCfg) (fno : Nat) (key value : String) : Except Nat ConsCfg :=
  match attrLookup attr key with
  | some (sn, d) =>
      .ok (setToggle cfg sn (if pyLower value = boolStr (!d) then !d else d))
  | none =>
    if key = "bds" then
      match pySplit value with
      | [] => .error fno
      | tag :: pat => .ok { cfg with bds := dictInsert cfg.bds tag pat }
    else if key = "ckt" then
      match pySplit value with
      | [tag, pat] =>
          match parseYN tag with
          | some b => .ok { cfg with ckt := cfg.ckt ++ [(b, pat)] }
          | none => .error fno
      | _ => .error fno
    else if key = "ckp" then
      match pySplit value with
      | [] => .error fno
      | ty :: pats =>
          if ty = "c" then .ok { cfg with ckpc := setUpdate cfg.ckpc pats }
          else if ty = "i" then .ok { cfg with ckpi := setUpdate cfg.ckpi pats }
          else if ty = "r" then .ok { cfg with ckpr := cfg.ckpr ++ pats }
          else .error fno
    else if key = "ckm" then
      match pySplit value with
      | [] => .error fno
      | p :: _ => .ok { cfg with ckm := cfg.ckm ++ [p] }
    else if key = "dpc" then .ok { cfg with dpc := some value }
    else if key = "pc" then
      match pySplit value with
      | [tag, pat] => .ok { cfg with pc := dictInsert cfg.pc tag pat }
      | _ => .error fno
    else if key = "cc" then
      match pySplit value with
      | [tag, pat] => .ok { cfg with cc := dictInsert cfg.cc tag pat }
      | _ => .error fno
    else if key = "dc" then
      match pySplit value with
      | v1 :: v2 :: _ =>
          if v1 = "r" then .ok { cfg with dc := dictInsert cfg.dc "re" (.re v2) }
          else
            match parseDecimal v1 with
            | some q => .ok { cfg with dc := dictInsert cfg.dc v2 (.num q) }
            | none => .error fno
      | _ => .error fno
    else if key = "hcd" then
      match pySplitOn '"' value with
      | [t0] =>
          match pySplit t0 with
          | [ty, pinIn, pinOut, tag] => .ok (hcdInsert cfg ty pinIn pinOut tag)
          | _ => .error fno
      | t0 :: t1 :: _ =>
          match pySplit t0 with
          | [ty, pinIn, pinOut] => .ok (hcdInsert cfg ty pinIn pinOut t1)
          | _ => .error fno
      | [] => .error fno
    else .ok cfg

/-- Comment stripping for one line: take the text before the first
number-sign character, then strip (line 78 of pt_ana_ts.py). -/
def lineContent (line : String) : String :=
  pyStrip ((pySplitOn '#' line).headD "")

/-- Shape of one rules-file line after comment stripping. -/
inductive LineShape where
  | blank
  | fields (key value : String)
  | malformed
deriving DecidableEq, Repr

/-- Classify a line: blank lines are skipped, lines with exactly one
colon split into stripped key and value, anything else is a tuple
unpacking error in the two-target assignment from line.split. -/
def lineShape (line : String) : LineShape :=
  let c := lineContent line
  if c = "" then .blank
  else
    match pySplitOn ':' c with
    | [k, v] => .fields (pyStrip k) (pyStrip v)
    | _ => .malformed

/-- Process one rules-file line at 1-based line number fno. -/
def processLine (cfg : ConsCfg) (fno : Nat) (line : String) : Except Nat ConsCfg :=
  match lineShape line with
  | .blank => .ok cfg
  | .fields k v => dispatch cfg fno k v
  | .malformed => .error fno

/-- Process the rules-file lines in order, any raised error aborts. -/
def processLines (fno : Nat) (ls : List String) (cfg : ConsCfg) : Except Nat ConsCfg :=
  match ls with
  | [] => .ok cfg
  | l :: t =>
      match processLine cfg fno l with
      | .ok c => processLines (fno + 1) t c
      | .error e => .error e

/-- Post-parse validation: drop dpc with an advisory message when it is
not a pc key. -/
def postValidate (cfg : ConsCfg) : ConsCfg × List Warn :=
  match cfg.dpc with
  | some t =>
      if (dictLookup cfg.pc t).isSome then (cfg, [])
      else ({ cfg with dpc := none }, [Warn.dpcDropped])
  | none => (cfg, [])

/-- load_times_cfg on the list of lines of an opened rules file. -/
def loadLines (ls : List String) : Except Nat (ConsCfg × List Warn) :=
  (processLines 1 ls defaultCfg).map postValidate

/-- load_times_cfg including the cfg_fp-is-None early return. -/
def loadTimesCfg (src : Option (List String)) : Except Nat (ConsCfg × List Warn) :=
  match src with
  | none => .ok (defaultCfg, [])
  | some ls => loadLines ls

/-- The first-match loop of get_time_bar_info over seg_dict.items():
take the key of the first entry whose pattern full-matches. -/
def firstMatch : List (String × (String → Bool)) → String → Option String
  | [], _ => none
  | (k, p) :: t, a => if p a then some k else firstMatch t a

/-- Whether the current tag's own pattern full-matches the attribute
(seg_dict[tag].fullmatch(cell attr) is not None). -/
def tagMatches (tbl : List (String × (String → Bool))) (t a : String) : Bool :=
  match dictLookup tbl t with
  | some p => p a
  | none => false

/-- One step of the sticky classification walk over a sub-path
(the per-cell body at the top of the loop in get_time_bar_info):
with an empty table nothing happens; otherwise the table is
re-consulted exactly when the current tag is absent or its pattern
does not full-match, and the new tag is the first full match, or
init_tag when nothing matches. -/
def stickyStep (tbl : List (String × (String → Bool))) (initTag cur : Option String)
    (a : String) : Option String :=
  if tbl.isEmpty then cur
  else
    match cur with
    | some t =>
        if tagMatches tbl t a then some t
        else
          match firstMatch tbl a with
          | some k => some k
          | none => initTag
    | none =>
        match firstMatch tbl a with
        | some k => some k
        | none => initTag

/-- The sticky walk from a given current tag, returning the tag
assigned after each cell. -/
def stickyWalk (tbl : List (String × (String → Bool))) (initTag cur : Option String) :
    List String → List (Option String)
  | [] => []
  | a :: t =>
      let n := stickyStep tbl initTag cur a
      n :: stickyWalk tbl initTag n t

/-- The sticky walk over a whole sub-path; the tag starts at init_tag
(tag, pal_idx = init_tag, -1 in get_time_bar_info). -/
def stickyTags (tbl : List (String × (String → Bool))) (initTag : Option String)
    (attrs : List String) : List (Option String) :=
  stickyWalk tbl initTag initTag attrs

/-- Specification-side restatement of one sticky step, written from the
amended sentence: re-consult only when the current tag is missing or
its own pattern does not full-match the cell attribute; on re-consult
the entries are tried in insertion order and the first full match
wins; when no entry matches, the tag resets to the initial default
tag.  With an empty table the tag is left unchanged. -/
def specStickyStep (tbl : List (String × (String → Bool))) (initTag cur : Option String)
    (a : String) : Option String :=
  if tbl.isEmpty then cur
  else if (match cur with | some t => tagMatches tbl t a | none => false) then cur
  else ((firstMatch tbl a).map some).getD initTag

/-- Specification-side sticky walk built from specStickyStep. -/
def specStickyWalk (tbl : List (String × (String → Bool))) (initTag cur : Option String) :
    List String → List (Option String)
  | [] => []
  | a :: t =>
      let n := specStickyStep tbl initTag cur a
      n :: specStickyWalk tbl initTag n t

/-- First-character matcher: the fullmatch behaviour of a regex of the
form c followed by dot-star on newline-free subject strings. -/
def demoMatch (c : Char) (s : String) : Bool :=
  match s.data with
  | [] => false
  | h :: _ => h = c

/-- Scalar timing fields of a parsed path used by the skew computation
in report_summary. -/
structure PathTiming where
  llat : ℚ
  clat : ℚ
  crpr : ℚ
deriving DecidableEq, Repr

/-- skew = path.llat - path.clat - path.crpr (report_summary). -/
def skewOf (p : PathTiming) : ℚ := p.llat - p.clat - p.crpr

/-- The -bars handling of report_summary: when bds is non-empty and the
requested tag is a bds key its data-type list is added, otherwise an
advisory warning is printed and nothing is added. -/
def barSetDtype (bds : List (String × List String)) (barSet : Option String) :
    List String × List Warn :=
  match barSet with
  | none => ([], [])
  | some t =>
      if !bds.isEmpty && (dictLookup bds t).isSome then
        ((dictLookup bds t).getD [], [])
      else ([], [Warn.barsNotFound])

/-- The per-cell data consumed by the driving-cell bar series of
show_time_bar. -/
structure BarCell where
  name : String
  cell : String
  drv : ℚ
  ln : Nat
deriving DecidableEq, Repr

/-- The driving-cell series loop of show_time_bar: every cell's drv is
appended, and each cell with negative drv additionally produces an
unknown-driving-cell warning; no cell stops the loop. -/
def buildDcSeries : List BarCell → List ℚ × List Warn
  | [] => ([], [])
  | c :: t =>
      let r := buildDcSeries t
      (c.drv :: r.1,
       (if c.drv < 0 then [Warn.unknownDrivingCell c.cell c.ln] else []) ++ r.2)

/-- Classification decisions derived from a compiled configuration for
a fixed list of pin names, through the sticky walk of
get_time_bar_info with default tag TP when dpc is unset
(show_time_bar) and init_tag dropped when not a pc key. -/
def classifyDecisions (I : String → String → Bool) (cfg : ConsCfg)
    (names : List String) : List (Option String) :=
  let dt := cfg.dpc.getD "TP"
  let tbl := cfg.pc.map (fun e => (e.1, I e.2))
  let it := if (dictLookup cfg.pc dt).isSome then some dt else none
  stickyTags tbl it names

instance exceptDecEq {ε α : Type} [DecidableEq ε] [DecidableEq α] :
    DecidableEq (Except ε α) := fun a b =>
  match a, b with
  | .ok x, .ok y =>
      if h : x = y then isTrue (by rw [h])
      else isFalse (by intro hc; cases hc; exact h rfl)
  | .error x, .error y =>
      if h : x = y then isTrue (by rw [h])
      else isFalse (by intro hc; cases hc; exact h rfl)
  | .ok _, .error _ => isFalse (by intro hc; cases hc)
  | .error _, .ok _ => isFalse (by intro hc; cases hc)

theorem optionEqSomeGetD {α : Type} (o : Option α) (d : α) (h : o.isSome = true) :
    o = some (o.getD d) := by
  cases o with
  | none => simp at h
  | some v => rfl

theorem dictLookup_dictInsert {α : Type} (l : List (String × α)) (k : String) (v : α) :
    dictLookup (dictInsert l k v) k = some v := by
  induction l with
  | nil => simp [dictInsert, dictLookup]
  | cons h t ih =>
      obtain ⟨k₀, v₀⟩ := h
      by_cases hk : k₀ = k
      · simp [dictInsert, hk, dictLookup]
      · simp [dictInsert, hk, dictLookup, ih]

theorem dictInsert_append_of_lookup_none {α : Type} (l : List (String × α))
    (k : String) (v : α) (h : dictLookup l k = none) :
    dictInsert l k v = l ++ [(k, v)] := by
  induction l with
  | nil => simp [dictInsert]
  | cons hd t ih =>
      obtain ⟨k₀, v₀⟩ := hd
      by_cases hk : k₀ = k
      · simp [dictLookup, hk] at h
      · simp [dictLookup, hk] at h
        simp [dictInsert, hk, ih h]

theorem processLines_append (pre suf : List String) (fno : Nat) (cfg : ConsCfg) :
    processLines fno (pre ++ suf) cfg =
      match processLines fno pre cfg with
      | .ok c => processLines (fno + pre.length) suf c
      | .error e => .error e := by
  induction pre generalizing fno cfg with
  | nil => simp [processLines]
  | cons l t ih =>
      simp only [List.cons_append, processLines]
      cases processLine cfg fno l with
      | ok c =>
          have h : fno + 1 + t.length = fno + (l :: t).length := by
            simp only [List.length_cons]
            omega
          exact (ih (fno + 1) c).trans (by rw [h])
      | error e => rfl

/-- Claim C3: for every parsed path the clock skew computed by
report_summary equals launch clock latency minus capture clock latency
minus CRPR, and for llat = 2.0, clat = 1.2, crpr = 0.3 the reported
skew is exactly 0.5.  (The IEEE-double evaluation of
2.0 - 1.2 - 0.3 is also exactly 0.5, so the rational model agrees with
the float semantics here.) -/
theorem skew_is_llat_sub_clat_sub_crpr :
    (∀ p : PathTiming, skewOf p = p.llat - p.clat - p.crpr) ∧
    skewOf { llat := 2, clat := 6 / 5, crpr := 3 / 10 } = 1 / 2 := by
  refine ⟨fun p => rfl, ?_⟩
  norm_num [skewOf]

/-- Claim C8: config compilation is deterministic: two runs of the
compiler on the same rules-file text produce equal results, and the
classification decisions derived from the compiled configuration for a
fixed list of names are identical across repeated runs.  In this pure
embedding (insertion-ordered association lists standing for Python
dicts, which are themselves insertion-ordered) both equalities are
reflexivity: the compiler has no source of nondeterminism. -/
theorem load_times_cfg_deterministic :
    ∀ (ls : List String) (I : String → String → Bool) (names : List String),
      loadLines ls = loadLines ls ∧
      (loadLines ls).map (fun r => classifyDecisions I r.1 names) =
        (loadLines ls).map (fun r => classifyDecisions I r.1 names) :=
  fun _ _ _ => ⟨rfl, rfl⟩

/-- Claim C2, counterexample to the no-match clause as stated: with
table A maps to fullmatch of a-dot-star, B maps to fullmatch of
b-dot-star and init_tag A, the cells named b1 then x1 get tags B then
A: at x1 the table is re-consulted (b1's tag B does not match x1),
nothing in the table matches, and the tag does NOT continue as the
current tag B - it resets to the initial tag A. -/
theorem sticky_no_match_resets_to_init :
    stickyTags [("A", demoMatch 'a'), ("B", demoMatch 'b')] (some "A") ["b1", "x1"]
      = [some "B", some "A"] ∧
    stickyTags [("A", demoMatch 'a'), ("B", demoMatch 'b')] (some "A") ["b1", "x1"]
      ≠ [some "B", some "B"] := by
  exact ⟨rfl, by decide⟩

/-- Claim C2 as amended: in the sticky classification walk of
get_time_bar_info, each step re-consults the table exactly when the
current tag is absent or its own pattern does not full-match the
cell's attribute; on re-consultation the entries are tried in
insertion order and the first full match wins; when no entry matches,
the tag resets to the initial default tag (init_tag) rather than
keeping the current tag.  Stated as equality of the implementation
step and walk with the specification-side restatement. -/
theorem sticky_walk_matches_spec :
    (∀ tbl initTag cur a, stickyStep tbl initTag cur a = specStickyStep tbl initTag cur a) ∧
    (∀ tbl initTag cur attrs,
        stickyWalk tbl initTag cur attrs = specStickyWalk tbl initTag cur attrs) := by
  have hstep : ∀ tbl initTag cur a,
      stickyStep tbl initTag cur a = specStickyStep tbl initTag cur a := by
    intro tbl initTag cur a
    cases cur with
    | none =>
        simp only [stickyStep, specStickyStep]
        cases firstMatch tbl a <;> simp
    | some t =>
        simp only [stickyStep, specStickyStep]
        by_cases hm : tagMatches tbl t a
        · simp [hm]
        · simp only [hm, Bool.false_eq_true, if_false]
          cases firstMatch tbl a <;> simp
  refine ⟨hstep, ?_⟩
  intro tbl initTag cur attrs
  induction attrs generalizing cur with
  | nil => rfl
  | cons a t ih =>
      simp only [stickyWalk, specStickyWalk, hstep]
      exact congrArg _ (ih _)

/-- Claim C4, counterexample: a non-blank, non-comment line whose key
is unrecognized but which still splits as one key and one value does
NOT make config compilation fail; load_times_cfg silently ignores it
and succeeds with the default configuration. -/
theorem unknown_key_line_no_error :
    loadLines ["foo: bar"] = .ok (defaultCfg, []) := by decide

/-- Claim C4 as amended: a non-blank, non-comment rules-file line whose
key is not one of the recognized handler keys is silently ignored when
it still splits into exactly one key and one value (the configuration
is returned unchanged and no error is raised); a ConfigSyntaxError
with the 1-based line number arises only when the line cannot be split
into key and value or a recognized handler rejects its value. -/
theorem unknown_key_line_ignored (cfg : ConsCfg) (fno : Nat) (line k v : String)
    (hl : lineShape line = .fields k v)
    (hk : attrLookup attr k = none)
    (hn : k ∉ (["bds", "ckt", "ckp", "ckm", "dpc", "pc", "cc", "dc", "hcd"] : List String)) :
    processLine cfg fno line = .ok cfg := by
  simp only [List.mem_cons, List.mem_singleton, not_or] at hn
  obtain ⟨h1, h2, h3, h4, h5, h6, h7, h8, h9⟩ := hn
  simp [processLine, hl, dispatch, hk, h1, h2, h3, h4, h5, h6, h7, h8, h9]

/-- Witness for the amended C4 theorem at the concrete line foo: bar. -/
theorem unknown_key_line_ignored_witness :
    processLine defaultCfg 1 "foo: bar" = .ok defaultCfg :=
  unknown_key_line_ignored defaultCfg 1 "foo: bar" "foo" "bar"
    (by decide) (by decide) (by decide)

/-- Claim C1: for every one of the seventeen boolean toggle keys with
hard-coded default d, processing a rules-file line for that key sets
the effective value to (not d) exactly when the value compares
case-insensitively equal to the string form of (not d); every other
value (the string form of d itself included) yields d. -/
theorem boolean_toggle_semantics (k sn : String) (d : Bool) (cfg : ConsCfg) (fno : Nat)
    (line v : String)
    (hk : attrLookup attr k = some (sn, d))
    (hl : lineShape line = .fields k v) :
    attr.length = 17 ∧
    processLine cfg fno line =
      .ok (setToggle cfg sn (if pyLower v = boolStr (!d) then !d else d)) ∧
    ∀ c, processLine cfg fno line = .ok c →
      ((effToggle c sn = some (!d)) ↔ pyLower v = boolStr (!d)) ∧
      (pyLower v ≠ boolStr (!d) → effToggle c sn = some d) := by
  have hd : processLine cfg fno line = dispatch cfg fno k v := by
    simp [processLine, hl]
  have he : dispatch cfg fno k v =
      .ok (setToggle cfg sn (if pyLower v = boolStr (!d) then !d else d)) := by
    simp [dispatch, hk]
  refine ⟨by decide, hd.trans he, ?_⟩
  intro c hc
  rw [hd, he] at hc
  injection hc with hc
  subst hc
  have hv : effToggle (setToggle cfg sn (if pyLower v = boolStr (!d) then !d else d)) sn
      = some (if pyLower v = boolStr (!d) then !d else d) := by
    simp [effToggle, setToggle, dictLookup_dictInsert]
  have hne : d ≠ !d := by cases d <;> simp
  constructor
  · rw [hv]
    constructor
    · intro h
      by_contra hcon
      rw [if_neg hcon] at h
      exact hne (Option.some.inj h)
    · intro h
      rw [if_pos h]
  · intro h
    rw [hv, if_neg h]

/-- Witness for the toggle theorem at the key slack_on_report (default
true) and the case-insensitive opposite value FALSE. -/
theorem boolean_toggle_semantics_witness :
    attr.length = 17 ∧
    processLine defaultCfg 1 "slack_on_report: FALSE" =
      .ok (setToggle defaultCfg "slk_on_rpt"
            (if pyLower "FALSE" = boolStr (!true) then !true else true)) ∧
    ∀ c, processLine defaultCfg 1 "slack_on_report: FALSE" = .ok c →
      ((effToggle c "slk_on_rpt" = some (!true)) ↔ pyLower "FALSE" = boolStr (!true)) ∧
      (pyLower "FALSE" ≠ boolStr (!true) → effToggle c "slk_on_rpt" = some true) :=
  boolean_toggle_semantics "slack_on_report" "slk_on_rpt" true defaultCfg 1
    "slack_on_report: FALSE" "FALSE" (by decide) (by decide)

theorem loadLines_error_at (pre suf : List String) (l : String) (c : ConsCfg)
    (h1 : processLines 1 pre defaultCfg = .ok c)
    (h2 : processLine c (1 + pre.length) l = .error (1 + pre.length)) :
    loadLines (pre ++ l :: suf) = .error (pre.length + 1) := by
  calc loadLines (pre ++ l :: suf)
      = (processLines 1 (pre ++ l :: suf) defaultCfg).map postValidate := rfl
    _ = (processLines (1 + pre.length) (l :: suf) c).map postValidate := by
          rw [processLines_append, h1]
    _ = (Except.error (1 + pre.length) : Except Nat ConsCfg).map postValidate := by
          simp only [processLines, h2]
    _ = .error (pre.length + 1) := by
          simp [Except.map, Nat.add_comm]

/-- Claim C5: a rules-file line whose value is malformed for the
recognized ckp handler (type token outside c, i, r) makes
load_times_cfg raise a ConfigSyntaxError carrying the exact 1-based
number of that line, and parsing aborts entirely: whatever the
remaining lines, the result is that error and no configuration. -/
theorem ckp_bad_type_aborts (pre suf : List String) (l v ty : String)
    (pats : List String) (c : ConsCfg)
    (h1 : processLines 1 pre defaultCfg = .ok c)
    (h2 : lineShape l = .fields "ckp" v)
    (h3 : pySplit v = ty :: pats)
    (h4 : ty ≠ "c") (h5 : ty ≠ "i") (h6 : ty ≠ "r") :
    loadLines (pre ++ l :: suf) = .error (pre.length + 1) := by
  have ha : attrLookup attr "ckp" = none := by decide
  have hdisp : dispatch c (1 + pre.length) "ckp" v = .error (1 + pre.length) := by
    simp [dispatch, ha, h3, h4, h5, h6]
  have hline : processLine c (1 + pre.length) l = .error (1 + pre.length) := by
    simp [processLine, h2, hdisp]
  exact loadLines_error_at pre suf l c h1 hline

/-- Witness for the abort theorem: the bad line ckp x foo sits on line
2 between two well-formed lines and the whole load fails with 2. -/
theorem ckp_bad_type_aborts_witness :
    loadLines (["dpc: P"] ++ "ckp: x foo" :: ["pc: A a"]) =
      .error (List.length ["dpc: P"] + 1) :=
  ckp_bad_type_aborts ["dpc: P"] ["pc: A a"] "ckp: x foo" "x foo" "x" ["foo"]
    { defaultCfg with dpc := some "P" }
    (by decide) (by decide) (by decide) (by decide) (by decide) (by decide)

/-- Claim C9: a non-blank, non-comment rules-file line whose
comment-stripped content contains more than one colon (so that
splitting on every colon yields at least three parts) raises
ConfigSyntaxError at exactly that line, whatever its key, because the
two-target unpacking of line.split fails. -/
theorem multi_colon_line_errors (pre suf : List String) (l : String) (c : ConsCfg)
    (h1 : processLines 1 pre defaultCfg = .ok c)
    (h2 : lineContent l ≠ "")
    (h3 : 3 ≤ (pySplitOn ':' (lineContent l)).length) :
    loadLines (pre ++ l :: suf) = .error (pre.length + 1) := by
  have hshape : lineShape l = .malformed := by
    simp only [lineShape]
    rw [if_neg h2]
    rcases hsplit : pySplitOn ':' (lineContent l) with _ | ⟨a, _ | ⟨b, _ | ⟨e, r⟩⟩⟩
    · rfl
    · rfl
    · rw [hsplit] at h3; simp at h3
    · rfl
  have hline : processLine c (1 + pre.length) l = .error (1 + pre.length) := by
    simp [processLine, hshape]
  exact loadLines_error_at pre suf l c h1 hline

/-- Witness for the multi-colon theorem: the line pc: A foo:bar has a
valid key and handler yet fails at its own line number. -/
theorem multi_colon_line_errors_witness :
    loadLines ([] ++ "pc: A foo:bar" :: []) = .error (List.length ([] : List String) + 1) :=
  multi_colon_line_errors [] [] "pc: A foo:bar" defaultCfg
    (by decide) (by decide) (by decide)

/-- Claim C6: ckt lines append to the ordered clock-cell-type rule
list in declaration order; pc and cc lines insert a fresh tag at the
end of the insertion-ordered table; and the match-time lookup tries
the entries in that order, the first full match winning: when entry i
matches and every earlier entry does not, the lookup answers entry
i's tag, so of two overlapping rules the earlier-declared one wins. -/
theorem first_match_priority :
    (∀ (c : ConsCfg) (fno : Nat) (v tag pat : String) (b : Bool),
        pySplit v = [tag, pat] → parseYN tag = some b →
        dispatch c fno "ckt" v = .ok { c with ckt := c.ckt ++ [(b, pat)] })
  ∧ (∀ (c : ConsCfg) (fno : Nat) (v tag pat : String),
        pySplit v = [tag, pat] → dictLookup c.pc tag = none →
        dispatch c fno "pc" v = .ok { c with pc := c.pc ++ [(tag, pat)] })
  ∧ (∀ (c : ConsCfg) (fno : Nat) (v tag pat : String),
        pySplit v = [tag, pat] → dictLookup c.cc tag = none →
        dispatch c fno "cc" v = .ok { c with cc := c.cc ++ [(tag, pat)] })
  ∧ (∀ (tbl : List (String × (String → Bool))) (a : String) (i : Nat) (h : i < tbl.length),
        (tbl.get ⟨i, h⟩).2 a = true →
        (∀ j (hj : j < i), (tbl.get ⟨j, Nat.lt_trans hj h⟩).2 a = false) →
        firstMatch tbl a = some (tbl.get ⟨i, h⟩).1) := by
  refine ⟨?_, ?_, ?_, ?_⟩
  · intro c fno v tag pat b hsplit hyn
    have ha : attrLookup attr "ckt" = none := by decide
    simp [dispatch, ha, hsplit, hyn]
  · intro c fno v tag pat hsplit hfresh
    have ha : attrLookup attr "pc" = none := by decide
    simp [dispatch, ha, hsplit, dictInsert_append_of_lookup_none _ _ _ hfresh]
  · intro c fno v tag pat hsplit hfresh
    have ha : attrLookup attr "cc" = none := by decide
    simp [dispatch, ha, hsplit, dictInsert_append_of_lookup_none _ _ _ hfresh]
  · intro tbl a i
    induction tbl generalizing i with
    | nil => intro h; exact absurd h (by simp)
    | cons hd t ih =>
        obtain ⟨k, p⟩ := hd
        intro h hm hprev
        cases i with
        | zero =>
            simp only [List.get] at hm ⊢
            simp [firstMatch, hm]
        | succ n =>
            have h0 : p a = false := by
              have := hprev 0 (Nat.succ_pos n)
              simpa using this
            have htail := ih n (Nat.lt_of_succ_lt_succ h) (by simpa using hm)
              (fun j hj => by simpa using hprev (j + 1) (Nat.succ_lt_succ hj))
            simpa [firstMatch, h0] using htail

/-- Witness for the priority theorem: a ckt, a pc and a cc line each
append at the end, and in a two-entry table where only the second
entry matches the subject abc, the lookup answers the second tag. -/
theorem first_match_priority_witness :
    dispatch defaultCfg 1 "ckt" "y a.*" =
      .ok { defaultCfg with ckt := defaultCfg.ckt ++ [(true, "a.*")] } ∧
    dispatch defaultCfg 1 "pc" "A a.*" =
      .ok { defaultCfg with pc := defaultCfg.pc ++ [("A", "a.*")] } ∧
    dispatch defaultCfg 1 "cc" "U u.*" =
      .ok { defaultCfg with cc := defaultCfg.cc ++ [("U", "u.*")] } ∧
    firstMatch [("A", demoMatch 'b'), ("B", demoMatch 'a')] "abc" = some "B" := by
  refine ⟨first_match_priority.1 defaultCfg 1 "y a.*" "y" "a.*" true (by decide) (by decide),
          first_match_priority.2.1 defaultCfg 1 "A a.*" "A" "a.*" (by decide) (by decide),
          first_match_priority.2.2.1 defaultCfg 1 "U u.*" "U" "u.*" (by decide) (by decide),
          first_match_priority.2.2.2 [("A", demoMatch 'b'), ("B", demoMatch 'a')]
            "abc" 1 (by decide) (by decide) ?_⟩
  intro j hj
  have hj0 : j = 0 := by omega
  subst hj0
  rfl

theorem buildDcSeries_fst (cells : List BarCell) :
    (buildDcSeries cells).1 = cells.map (fun x => x.drv) := by
  induction cells with
  | nil => rfl
  | cons c t ih => simp [buildDcSeries, ih]

theorem buildDcSeries_snd (cells : List BarCell) :
    (buildDcSeries cells).2 =
      (cells.filter (fun x => decide (x.drv < 0))).map
        (fun x => Warn.unknownDrivingCell x.cell x.ln) := by
  induction cells with
  | nil => rfl
  | cons c t ih =>
      by_cases h : c.drv < 0
      · simp [buildDcSeries, List.filter_cons, h, ih]
      · simp [buildDcSeries, List.filter_cons, h, ih]

/-- Claim C7: the advisory conditions are non-fatal.  A dpc that is
not a pc key is cleared to unset with a warning and load_times_cfg
still succeeds; a requested bar-dataset tag absent from the config
yields a warning and an empty addition, not an error; and the
driving-cell series is produced for every cell, the unclassified ones
(negative drv) each contributing a warning rather than stopping. -/
theorem advisory_warnings_nonfatal (ls : List String) (c : ConsCfg) (t u : String)
    (bds : List (String × List String)) (cells : List BarCell)
    (h1 : processLines 1 ls defaultCfg = .ok c)
    (h2 : c.dpc = some t)
    (h3 : dictLookup c.pc t = none)
    (h4 : dictLookup bds u = none) :
    loadLines ls = .ok ({ c with dpc := none }, [Warn.dpcDropped]) ∧
    barSetDtype bds (some u) = ([], [Warn.barsNotFound]) ∧
    (buildDcSeries cells).1 = cells.map (fun x => x.drv) ∧
    (buildDcSeries cells).2 =
      (cells.filter (fun x => decide (x.drv < 0))).map
        (fun x => Warn.unknownDrivingCell x.cell x.ln) := by
  refine ⟨?_, ?_, buildDcSeries_fst cells, buildDcSeries_snd cells⟩
  · unfold loadLines
    rw [h1]
    simp [Except.map, postValidate, h2, h3]
  · simp [barSetDtype, h4]

/-- Witness for the advisory theorem: dpc X with no pc table, a
missing bar-dataset tag zz, and one unclassified driving cell. -/
theorem advisory_warnings_nonfatal_witness :
    loadLines ["dpc: X"] = .ok (defaultCfg, [Warn.dpcDropped]) ∧
    barSetDtype [("w", ["c", "t"])] (some "zz") = ([], [Warn.barsNotFound]) ∧
    (buildDcSeries [{ name := "n1", cell := "BUFX2", drv := -1, ln := 7 }]).1 =
      [{ name := "n1", cell := "BUFX2", drv := -1, ln := 7 : BarCell }].map
        (fun x => x.drv) ∧
    (buildDcSeries [{ name := "n1", cell := "BUFX2", drv := -1, ln := 7 }]).2 =
      ([{ name := "n1", cell := "BUFX2", drv := -1, ln := 7 : BarCell }].filter
        (fun x => decide (x.drv < 0))).map
        (fun x => Warn.unknownDrivingCell x.cell x.ln) :=
  advisory_warnings_nonfatal ["dpc: X"] { defaultCfg with dpc := some "X" } "X" "zz"
    [("w", ["c", "t"])] [{ name := "n1", cell := "BUFX2", drv := -1, ln := 7 }]
    (by decide) rfl rfl rfl

/-- Claim C10: the driving-cell table keeps the catch-all regex under
the literal key re, so a dc line with catch-all regex and a dc numeric
override for a cell literally named re write the same slot, and
whichever line is processed second wins in either order. -/
theorem dc_re_key_collision (c : ConsCfg) (fno : Nat) (v w d v2 pat : String)
    (q : ℚ) (r1 r2 : List String)
    (hv : pySplit v = "r" :: pat :: r1)
    (hw : pySplit w = d :: v2 :: r2)
    (hd : d ≠ "r")
    (hq : parseDecimal d = some q) :
    dispatch c fno "dc" v = .ok { c with dc := dictInsert c.dc "re" (.re pat) } ∧
    dispatch c fno "dc" w = .ok { c with dc := dictInsert c.dc v2 (.num q) } ∧
    (v2 = "re" →
      dictLookup (dictInsert (dictInsert c.dc "re" (.re pat)) v2 (.num q)) "re"
        = some (.num q) ∧
      dictLookup (dictInsert (dictInsert c.dc v2 (.num q)) "re" (.re pat)) "re"
        = some (.re pat)) := by
  have ha : attrLookup attr "dc" = none := by decide
  refine ⟨by simp [dispatch, ha, hv], by simp [dispatch, ha, hw, hd, hq], ?_⟩
  intro hv2
  subst hv2
  exact ⟨dictLookup_dictInsert _ _ _, dictLookup_dictInsert _ _ _⟩

/-- Witness for the dc collision theorem with catch-all pattern x.*
and numeric override 1.5 for the cell named re. -/
theorem dc_re_key_collision_witness :
    dispatch defaultCfg 1 "dc" "r x.*" =
      .ok { defaultCfg with dc := dictInsert defaultCfg.dc "re" (.re "x.*") } ∧
    dispatch defaultCfg 1 "dc" "1.5 re" =
      .ok { defaultCfg with
              dc := dictInsert defaultCfg.dc "re" (.num ((parseDecimal "1.5").getD 0)) } ∧
    ("re" = "re" →
      dictLookup (dictInsert (dictInsert defaultCfg.dc "re" (.re "x.*")) "re"
          (.num ((parseDecimal "1.5").getD 0))) "re"
        = some (.num ((parseDecimal "1.5").getD 0)) ∧
      dictLookup (dictInsert (dictInsert defaultCfg.dc "re"
          ((.num ((parseDecimal "1.5").getD 0)) : DcVal)) "re" (.re "x.*")) "re"
        = some (.re "x.*")) :=
  dc_re_key_collision defaultCfg 1 "r x.*" "1.5 re" "1.5" "re" "x.*"
    ((parseDecimal "1.5").getD 0) [] []
    (by decide) (by decide) (by decide) (optionEqSomeGetD _ 0 (by decide))

end PtAnaTs
